import Mathlib

/-!
Verification development for the Electron/Python backend bridge of the
omr-electron repository.

The definitions below are a shallow embedding of the JavaScript source:

* `src/electron/python-bridge.cjs` — the `PythonBridge` class: its mutable
  fields become the `Bridge` structure, its methods become pure functions
  from a `Bridge` to a `Bridge` paired with the list of observable effects
  (`Event`s: stdin writes, callback invocations, console logs).
* `src/electron/main.cjs` — the `python-call` IPC dispatcher
  (`ipcPythonCall`) and the socket-polling readiness wait
  (`waitForService` / `startPythonBackend`).

Modelling conventions:

* JS callbacks are identified by opaque `Nat` tokens; invoking a callback is
  recorded as an `Event` rather than executed.
* `params` objects are modelled one level deep as association lists from
  field name to the field's serialized value.
* Whether `pythonProcess.stdin.write` succeeds or throws is an explicit
  `writeOk : Bool` argument at each call site.
* Backend result payloads are modelled as natural numbers; the protocol
  parser below implements `JSON.parse` restricted to the exact frame
  schemas the backend emits (`{"id":<nat>,"result":<nat>}` and
  `{"id":<nat>,"message":"<text>"}`).
* JS string primitives used by the source (`trim`, `split('\n')`,
  `startsWith`, `substring`) are implemented over `List Char` so that all
  definitions are executable.
-/

namespace OmrBridge

/-! ## JS string primitives used by `handlePythonMessage` -/

/-- Whitespace recognized by `String.prototype.trim` (the characters that
actually occur on this channel). -/
def isJsSpace (c : Char) : Bool :=
  c = ' ' || c = '\n' || c = '\t' || c = '\r'

/-- Model of `data.trim()`. -/
def jsTrim (cs : List Char) : List Char :=
  ((cs.dropWhile isJsSpace).reverse.dropWhile isJsSpace).reverse

/-- Model of `String.prototype.split('\n')`. -/
def splitNl : List Char → List (List Char)
  | [] => [[]]
  | c :: cs =>
    let r := splitNl cs
    if c = '\n' then
      [] :: r
    else
      match r with
      | h :: t => (c :: h) :: t
      | [] => [[c]]

/-- Model of `line.startsWith(tag)` combined with `line.substring(tag.length)`:
returns the remainder when `tag` is a leading part of `cs`. -/
def stripTag : List Char → List Char → Option (List Char)
  | [], cs => some cs
  | _ :: _, [] => none
  | p :: ps, c :: cs => if c = p then stripTag ps cs else none

/-- First occurrence of a separator: `splitOnce sep cs = some (pre, post)`
when `cs = pre ++ sep ++ post` with `pre` minimal. -/
def splitOnce (sep : List Char) : List Char → Option (List Char × List Char)
  | [] => none
  | c :: cs =>
    match stripTag sep (c :: cs) with
    | some rest => some ([], rest)
    | none =>
      match splitOnce sep cs with
      | some (pre, post) => some (c :: pre, post)
      | none => none

/-- Remove a required final character. -/
def chompEnd (c : Char) (cs : List Char) : Option (List Char) :=
  match cs.reverse with
  | [] => none
  | last :: rev => if last = c then some rev.reverse else none

/-- Decimal digit value of a character. -/
def digitVal (c : Char) : Option Nat :=
  if 48 ≤ c.toNat ∧ c.toNat ≤ 57 then some (c.toNat - 48) else none

/-- Accumulate decimal digits. -/
def parseNatCore : List Char → Nat → Option Nat
  | [], acc => some acc
  | c :: cs, acc =>
    match digitVal c with
    | some d => parseNatCore cs (acc * 10 + d)
    | none => none

/-- Parse a non-empty all-digit character list as a natural number (the JSON
number grammar restricted to the ids and results this channel carries). -/
def parseNat : List Char → Option Nat
  | [] => none
  | c :: cs => parseNatCore (c :: cs) 0

/-! ## Protocol data (spec §3, source `python-bridge.cjs`) -/

/-- A renderer-supplied params object, one level deep: field name paired with
the field's serialized value. -/
abbrev Params := List (String × String)

/-- Field access `params.f` as performed by the dispatcher in `main.cjs`;
an absent field reads as `undefined`. -/
def jget (p : Params) (f : String) : String :=
  match p.find? (fun e => e.1 == f) with
  | some e => e.2
  | none => "undefined"

/-- `JSON.stringify` of a params object. -/
def serializeParams (p : Params) : String :=
  "\x7b" ++ String.intercalate "," (p.map (fun f => "\"" ++ f.1 ++ "\":" ++ f.2)) ++ "\x7d"

/-- The line written to the backend's stdin for one request:
`JSON.stringify({id, method, params}) + '\n'` (python-bridge.cjs line 132). -/
def serializeRequest (id : Nat) (method : String) (params : Params) : String :=
  "\x7b\"id\":" ++ toString id ++ ",\"method\":\"" ++ method ++ "\",\"params\":"
    ++ serializeParams params ++ "\x7d\n"

/-- An inbound frame after JSON parsing: a Response (`RESPONSE:` tag) or a
Fault (`ERROR:` tag). -/
inductive Frame where
  | response (id result : Nat)
  | fault (id : Nat) (message : String)
  deriving DecidableEq

/-- Observable effects of the bridge code: a stdin write of a serialized
request (recorded with the id it carries), a callback invoked with a result
(`callback(null, result)`), a callback invoked with an error
(`callback(err, null)`), or a console log. -/
inductive Event where
  | sent (id : Nat) (line : String)
  | cbResult (cb : Nat) (result : Nat)
  | cbError (cb : Nat) (message : String)
  | logged (message : String)
  deriving DecidableEq

/-- Whether an event is a callback invocation (resolution or failure of a
caller's promise). -/
def isCallbackEvent : Event → Bool
  | Event.cbResult _ _ => true
  | Event.cbError _ _ => true
  | _ => false

/-- One entry of `this.messageQueue`: a call made before the bridge was
ready (python-bridge.cjs line 118). -/
structure QueuedCall where
  method : String
  params : Params
  callback : Nat
  deriving DecidableEq

/-- The mutable state of the `PythonBridge` class (constructor, lines 6-12):
`isReady`, `messageQueue`, `callbacks` (a Map from id to callback, modelled
as an association list) and the `messageId` counter. -/
structure Bridge where
  isReady : Bool
  messageQueue : List QueuedCall
  callbacks : List (Nat × Nat)
  messageId : Nat
  deriving DecidableEq

/-- The state built by the constructor. -/
def initialBridge : Bridge := ⟨false, [], [], 0⟩

/-! ## The callbacks Map (JS `Map` get/set/delete restricted to Nat keys) -/

/-- `map.get k`. -/
def mapGet : List (Nat × Nat) → Nat → Option Nat
  | [], _ => none
  | e :: rest, k => if e.1 == k then some e.2 else mapGet rest k

/-- `map.set k v` (replace in place, append when the key is new). -/
def mapSet : List (Nat × Nat) → Nat → Nat → List (Nat × Nat)
  | [], k, v => [(k, v)]
  | e :: rest, k, v => if e.1 == k then (k, v) :: rest else e :: mapSet rest k v

/-- `map.delete k`. -/
def mapDelete : List (Nat × Nat) → Nat → List (Nat × Nat)
  | [], _ => []
  | e :: rest, k => if e.1 == k then mapDelete rest k else e :: mapDelete rest k

/-! ## PythonBridge.callPython and the message queue (lines 109-137) -/

/-- `callPython(method, params, callback)`: when not ready, push onto
`messageQueue` and return; when ready, allocate `++this.messageId`, register
the callback, and write the serialized request to stdin — if the write
throws (`writeOk = false`), the callback is failed and the registration
deleted (lines 131-136). -/
def callPython (writeOk : Bool) (b : Bridge) (method : String) (params : Params)
    (cb : Nat) : Bridge × List Event :=
  if !b.isReady then
    ({ b with messageQueue := b.messageQueue ++ [⟨method, params, cb⟩] }, [])
  else
    let messageId := b.messageId + 1
    let b1 : Bridge :=
      { b with messageId := messageId, callbacks := mapSet b.callbacks messageId cb }
    if writeOk then
      (b1, [Event.sent messageId (serializeRequest messageId method params)])
    else
      ({ b1 with callbacks := mapDelete b1.callbacks messageId },
        [Event.cbError cb "write failed"])

/-- The `while (this.messageQueue.length > 0)` loop body of
`processMessageQueue`, with fuel bounding the number of iterations; the
caller supplies fuel equal to the current queue length, which is exact
whenever the bridge is ready (each iteration shifts one entry and, being
ready, `callPython` never re-queues it). -/
def drainGo (writeOk : Bool) : Nat → Bridge → Bridge × List Event
  | 0, b => (b, [])
  | fuel + 1, b =>
    match b.messageQueue with
    | [] => (b, [])
    | qc :: rest =>
      let r1 := callPython writeOk { b with messageQueue := rest } qc.method qc.params qc.callback
      let r2 := drainGo writeOk fuel r1.1
      (r2.1, r1.2 ++ r2.2)

/-- `processMessageQueue()` (lines 109-114). -/
def processMessageQueue (writeOk : Bool) (b : Bridge) : Bridge × List Event :=
  drainGo writeOk b.messageQueue.length b

/-- The body of the `setTimeout` in `initialize` (lines 54-58): set
`isReady = true` and drain the queue. -/
def readyTimeout (writeOk : Bool) (b : Bridge) : Bridge × List Event :=
  processMessageQueue writeOk { b with isReady := true }

/-- The `exit` handler installed in `initialize` (lines 48-51): log the exit
code and set `isReady = false`.  Nothing else: `callbacks` and
`messageQueue` are left as they are. -/
def exitHandler (b : Bridge) (code : Int) : Bridge × List Event :=
  ({ b with isReady := false },
    [Event.logged ("Python process exited with code " ++ toString code)])

/-- `terminate()` (lines 284-292): kill the process, set `isReady = false`,
clear `callbacks` and `messageQueue`.  The clears do not invoke the
callbacks, so no events are produced. -/
def terminate (b : Bridge) : Bridge × List Event :=
  ({ b with isReady := false, callbacks := [], messageQueue := [] }, [])

/-! ## handlePythonMessage (lines 84-107) -/

/-- `JSON.parse` restricted to the response schema
`\x7b"id":<nat>,"result":<nat>\x7d`. -/
def parseResponseBody (cs : List Char) : Option (Nat × Nat) :=
  match stripTag ("\x7b\"id\":".data) cs with
  | none => none
  | some rest =>
    match splitOnce (",\"result\":".data) rest with
    | none => none
    | some (idCs, afterCs) =>
      match chompEnd (Char.ofNat 125) afterCs with
      | none => none
      | some resCs =>
        match parseNat idCs, parseNat resCs with
        | some i, some r => some (i, r)
        | _, _ => none

/-- `JSON.parse` restricted to the fault schema
`\x7b"id":<nat>,"message":"<text>"\x7d`. -/
def parseFaultBody (cs : List Char) : Option (Nat × String) :=
  match stripTag ("\x7b\"id\":".data) cs with
  | none => none
  | some rest =>
    match splitOnce (",\"message\":\"".data) rest with
    | none => none
    | some (idCs, afterCs) =>
      match chompEnd (Char.ofNat 125) afterCs with
      | none => none
      | some quoted =>
        match chompEnd '"' quoted with
        | none => none
        | some msgCs =>
          match parseNat idCs with
          | some i => some (i, String.mk msgCs)
          | none => none

/-- Outcome of examining one line of stdout data: a parsed frame, a line
matching neither tag (silently skipped by the `for` loop), or a JSON parse
failure (an exception reaching the `catch`). -/
inductive LineOutcome where
  | frame (f : Frame)
  | skipped
  | parseFailure
  deriving DecidableEq

/-- Classify one line exactly as the loop body of `handlePythonMessage`
does: `RESPONSE:` prefix, then `ERROR:` prefix, else skip. -/
def classifyLine (line : List Char) : LineOutcome :=
  match stripTag ("RESPONSE:".data) line with
  | some body =>
    match parseResponseBody body with
    | some p => LineOutcome.frame (Frame.response p.1 p.2)
    | none => LineOutcome.parseFailure
  | none =>
    match stripTag ("ERROR:".data) line with
    | some body =>
      match parseFaultBody body with
      | some p => LineOutcome.frame (Frame.fault p.1 p.2)
      | none => LineOutcome.parseFailure
    | none => LineOutcome.skipped

/-- Deliver one parsed frame (lines 90-101): look the id up in `callbacks`;
when present, invoke the callback and delete the entry; when absent, do
nothing. -/
def dispatchFrame (b : Bridge) : Frame → Bridge × List Event
  | Frame.response i r =>
    match mapGet b.callbacks i with
    | some cb => ({ b with callbacks := mapDelete b.callbacks i }, [Event.cbResult cb r])
    | none => (b, [])
  | Frame.fault i msg =>
    match mapGet b.callbacks i with
    | some cb => ({ b with callbacks := mapDelete b.callbacks i }, [Event.cbError cb msg])
    | none => (b, [])

/-- The `for (const line of lines)` loop with the surrounding `try/catch`:
a parse failure aborts the remaining lines of this read and logs. -/
def handleLines (b : Bridge) : List (List Char) → Bridge × List Event
  | [] => (b, [])
  | line :: rest =>
    match classifyLine line with
    | LineOutcome.parseFailure => (b, [Event.logged "Error parsing Python message"])
    | LineOutcome.skipped => handleLines b rest
    | LineOutcome.frame f =>
      let r1 := dispatchFrame b f
      let r2 := handleLines r1.1 rest
      (r2.1, r1.2 ++ r2.2)

/-- `handlePythonMessage(data)` (lines 84-107): one invocation per raw
stdout read, splitting that single read on newlines after trimming —
there is no carry-over buffer between reads. -/
def handlePythonMessage (b : Bridge) (data : String) : Bridge × List Event :=
  handleLines b (splitNl (jsTrim data.data))

/-! ## The `python-call` IPC dispatcher (main.cjs lines 114-160)

Each `case` awaits the corresponding `PythonBridge` wrapper method, which
rebuilds the params object and calls `callPython` with the backend method
name; the `default` case throws `Unknown method: ${method}` before any
bridge method is reached.  The result triple is (bridge state after the
handler, events produced, thrown error if any). -/

/-- The fixed catalogue of operation names accepted by the `switch`. -/
def supportedMethods : List String :=
  ["create_exam", "get_exams", "get_exam", "upload_students", "get_students",
   "upload_solution", "get_solution", "process_omr_image", "batch_process_omr",
   "save_result", "get_results", "get_all_results", "generate_omr_sheets",
   "download_omr_sheets", "get_settings", "update_settings"]

/-- Wrap a bridge call as a non-throwing dispatcher outcome. -/
def okCall (r : Bridge × List Event) : Bridge × List Event × Option String :=
  (r.1, r.2, none)

/-- `ipcMain.handle('python-call', ...)`: route the method name through the
`switch`, rebuilding the params object exactly as the named wrapper methods
in python-bridge.cjs do. -/
def ipcPythonCall (writeOk : Bool) (b : Bridge) (method : String) (params : Params)
    (cb : Nat) : Bridge × List Event × Option String :=
  match method with
  | "create_exam" => okCall (callPython writeOk b "create_exam" params cb)
  | "get_exams" => okCall (callPython writeOk b "get_exams" [] cb)
  | "get_exam" =>
    okCall (callPython writeOk b "get_exam" [("examId", jget params "examId")] cb)
  | "upload_students" =>
    okCall (callPython writeOk b "upload_students"
      [("examId", jget params "examId"), ("studentsData", jget params "studentsData")] cb)
  | "get_students" =>
    okCall (callPython writeOk b "get_students" [("examId", jget params "examId")] cb)
  | "upload_solution" =>
    okCall (callPython writeOk b "upload_solution"
      [("examId", jget params "examId"), ("solutionsData", jget params "solutionsData")] cb)
  | "get_solution" =>
    okCall (callPython writeOk b "get_solution" [("examId", jget params "examId")] cb)
  | "process_omr_image" =>
    okCall (callPython writeOk b "process_omr_image"
      [("examId", jget params "examId"), ("imageData", jget params "imageData"),
       ("studentId", jget params "studentId")] cb)
  | "batch_process_omr" =>
    okCall (callPython writeOk b "batch_process_omr"
      [("examId", jget params "examId"), ("imagesData", jget params "imagesData")] cb)
  | "save_result" => okCall (callPython writeOk b "save_result" params cb)
  | "get_results" =>
    okCall (callPython writeOk b "get_results" [("examId", jget params "examId")] cb)
  | "get_all_results" => okCall (callPython writeOk b "get_all_results" [] cb)
  | "generate_omr_sheets" =>
    okCall (callPython writeOk b "generate_omr_sheets" [("examId", jget params "examId")] cb)
  | "download_omr_sheets" =>
    okCall (callPython writeOk b "download_omr_sheets" [("examId", jget params "examId")] cb)
  | "get_settings" => okCall (callPython writeOk b "get_settings" [] cb)
  | "update_settings" => okCall (callPython writeOk b "update_settings" params cb)
  | _ => (b, [], some ("Unknown method: " ++ method))

/-! ## Socket-poll readiness (main.cjs `waitForService`, lines 230-265)

`checkConnection` makes one short-timeout socket attempt; on `connect` the
promise resolves, on `error`/`timeout` `checkAgain` runs: it rejects once
`Date.now() - startTime > timeout`, otherwise it schedules the next attempt
after a fixed 1000 ms delay.

The model is parameterized by a connectivity oracle `connects n` (whether
the n-th attempt reaches the backend) and by `cost n` (milliseconds the
n-th attempt takes before failing or connecting, at most the 1000 ms socket
timeout in the source but left arbitrary here).  `fuel` bounds the number
of attempts; the out-of-fuel case returns `none`, and the theorems about
never-connecting oracles prove `some (Except.error e)`, which shows the
bound is not reached.  `Except.error e` models the
`Service on port ... did not start within ...ms` rejection, carrying the
elapsed milliseconds at rejection. -/
def waitLoop (connects : Nat → Bool) (cost : Nat → Nat) (timeout : Nat) :
    Nat → Nat → Nat → Option (Except Nat Nat)
  | 0, _, _ => none
  | fuel + 1, n, elapsed =>
    let t1 := elapsed + cost n
    if connects n then
      some (Except.ok t1)
    else if timeout < t1 then
      some (Except.error t1)
    else
      waitLoop connects cost timeout fuel (n + 1) (t1 + 1000)

/-- `waitForService(port, timeout)` with the configured 30000 ms budget:
start at attempt 0, elapsed 0.  The fuel `timeout / 1000 + 2` is enough for
every oracle, as the theorems below establish. -/
def waitForService (connects : Nat → Bool) (cost : Nat → Nat) (timeout : Nat) :
    Option (Except Nat Nat) :=
  waitLoop connects cost timeout (timeout / 1000 + 2) 0 0

/-- `startPythonBackend()` (main.cjs lines 268-333): when the port is
already taken, return `true` at once; otherwise spawn and await
`waitForService(3001, 30000)` — on rejection the `catch` shows an error box
and returns `false`.  The function never writes a request to the backend in
either path, which the empty-of-`sent` event list records. -/
def startPythonBackend (portFree : Bool) (connects : Nat → Bool) (cost : Nat → Nat) :
    Bool × List Event :=
  if !portFree then
    (true, [Event.logged "Backend is already running on port 3001"])
  else
    match waitForService connects cost 30000 with
    | some (Except.ok _) => (true, [Event.logged "Python backend started successfully"])
    | _ => (false, [Event.logged "Failed to start Python backend"])

/-! ## Whole-session operational model

A session is a list of externally triggered operations on one bridge
instance: renderer calls, raw stdout reads, the readiness timeout firing,
the process `exit` event, and `terminate()`. -/

/-- One externally triggered operation. -/
inductive Op where
  | call (writeOk : Bool) (method : String) (params : Params) (cb : Nat)
  | recv (data : String)
  | ready (writeOk : Bool)
  | procExit (code : Int)
  | term
  deriving DecidableEq

/-- Apply one operation. -/
def stepOp (b : Bridge) : Op → Bridge × List Event
  | Op.call w m p cb => callPython w b m p cb
  | Op.recv data => handlePythonMessage b data
  | Op.ready w => readyTimeout w b
  | Op.procExit c => exitHandler b c
  | Op.term => terminate b

/-- Run a session, accumulating events in order. -/
def runOps (b : Bridge) : List Op → Bridge × List Event
  | [] => (b, [])
  | op :: ops =>
    let r1 := stepOp b op
    let r2 := runOps r1.1 ops
    (r2.1, r1.2 ++ r2.2)

/-- The ids of the requests transmitted to the backend, in transmission
order. -/
def sentIds : List Event → List Nat
  | [] => []
  | Event.sent i _ :: rest => i :: sentIds rest
  | _ :: rest => sentIds rest

/-- Whether an operation's stdin write (if it performs one) succeeds. -/
def opWriteOk : Op → Bool
  | Op.call w _ _ _ => w
  | Op.ready w => w
  | _ => true

/-- Every write performed during the session succeeds. -/
def allWritesOk (ops : List Op) : Bool := ops.all opWriteOk

/-! ## Lemmas about the callbacks Map -/

theorem mapGet_mapDelete_self (m : List (Nat × Nat)) (k : Nat) :
    mapGet (mapDelete m k) k = none := by
  induction m with
  | nil => rfl
  | cons e rest ih =>
    by_cases h : e.1 = k
    · simpa [mapDelete, h] using ih
    · simpa [mapDelete, mapGet, h] using ih

theorem mapGet_mapDelete_ne (m : List (Nat × Nat)) (k j : Nat) (h : j ≠ k) :
    mapGet (mapDelete m k) j = mapGet m j := by
  induction m with
  | nil => rfl
  | cons e rest ih =>
    by_cases hk : e.1 = k
    · have hne : ¬e.1 = j := by omega
      simp [mapDelete, mapGet, hk, hne, Ne.symm h, ih]
    · by_cases hj : e.1 = j
      · simp [mapDelete, mapGet, hk, hj, h]
      · simp [mapDelete, mapGet, hk, hj, ih]

/-! ## Claim theorems -/

/-- Claim C1 (code gap).  The claim says that on backend exit the bridge
fails every pending and queued call with `BackendUnavailableError`, and that
`terminate()` fails all outstanding calls rather than leaving their promises
unresolved.  The code does neither: with a pending callback for id 1 and one
queued call, the `exit` handler produces no callback invocation at all and
leaves both the callbacks map and the queue exactly as they were, and
`terminate()` produces no events whatsoever while erasing both — so the
corresponding promises are never settled. -/
theorem exit_terminate_no_failure_propagation :
    ((exitHandler ⟨true, [⟨"get_exams", [], 21⟩], [(1, 20)], 1⟩ 1).2.filter isCallbackEvent
        = [] ∧
      (exitHandler ⟨true, [⟨"get_exams", [], 21⟩], [(1, 20)], 1⟩ 1).1.callbacks = [(1, 20)] ∧
      (exitHandler ⟨true, [⟨"get_exams", [], 21⟩], [(1, 20)], 1⟩ 1).1.messageQueue
        = [⟨"get_exams", [], 21⟩]) ∧
    ((terminate ⟨true, [⟨"get_exams", [], 21⟩], [(1, 20)], 1⟩).2 = [] ∧
      (terminate ⟨true, [⟨"get_exams", [], 21⟩], [(1, 20)], 1⟩).1.callbacks = [] ∧
      (terminate ⟨true, [⟨"get_exams", [], 21⟩], [(1, 20)], 1⟩).1.messageQueue = []) := by
  decide

/-- Claim C4.  A Response or Fault frame whose id has no registered
pending callback is dropped without any exception and without any event:
the bridge state (in particular every other entry of the callbacks map) is
returned unchanged, and a subsequently received frame for a registered id
is still delivered to its callback. -/
theorem unmatched_frame_dropped (b : Bridge) (i r j r2 cbj : Nat) (msg : String)
    (h : mapGet b.callbacks i = none) :
    dispatchFrame b (Frame.response i r) = (b, []) ∧
    dispatchFrame b (Frame.fault i msg) = (b, []) ∧
    (mapGet b.callbacks j = some cbj →
      (dispatchFrame (dispatchFrame b (Frame.response i r)).1 (Frame.response j r2)).2
        = [Event.cbResult cbj r2]) := by
  refine ⟨?_, ?_, ?_⟩
  · simp [dispatchFrame, h]
  · simp [dispatchFrame, h]
  · intro hj
    simp [dispatchFrame, h, hj]

/-- Witness for C4 at a concrete bridge: id 1 is unmatched while id 2 is
registered with callback 5. -/
theorem unmatched_frame_dropped_witness :
    dispatchFrame ⟨true, [], [(2, 5)], 2⟩ (Frame.response 1 9) = (⟨true, [], [(2, 5)], 2⟩, []) ∧
    dispatchFrame ⟨true, [], [(2, 5)], 2⟩ (Frame.fault 1 "boom") = (⟨true, [], [(2, 5)], 2⟩, []) ∧
    (dispatchFrame (dispatchFrame ⟨true, [], [(2, 5)], 2⟩ (Frame.response 1 9)).1
        (Frame.response 2 7)).2 = [Event.cbResult 5 7] := by
  have h := unmatched_frame_dropped ⟨true, [], [(2, 5)], 2⟩ 1 9 2 7 5 "boom" (by decide)
  exact ⟨h.1, h.2.1, h.2.2 (by decide)⟩

/-- Claim C5 (code gap).  The claim says received bytes are reassembled
into complete newline-terminated lines before parsing, so a frame split
across two raw reads is still parsed and delivered.  The code instead runs
`data.trim().split('\n')` on each raw read independently: delivered in one
read, the frame `RESPONSE:\x7b"id":1,"result":5\x7d\n` resolves the pending
callback 10, but delivered as the two reads `RESPONSE:\x7b"id":1,` and
`"result":5\x7d\n` — whose concatenation is that same frame — the first
fragment only logs a parse error, the second matches no tag, the pending
entry for id 1 survives both reads, and no callback is ever invoked. -/
theorem split_frame_dropped :
    ("RESPONSE:\x7b\"id\":1," ++ "\"result\":5\x7d\n" : String)
        = "RESPONSE:\x7b\"id\":1,\"result\":5\x7d\n" ∧
    handlePythonMessage ⟨true, [], [(1, 10)], 1⟩ "RESPONSE:\x7b\"id\":1,\"result\":5\x7d\n"
        = (⟨true, [], [], 1⟩, [Event.cbResult 10 5]) ∧
    (handlePythonMessage
        (handlePythonMessage ⟨true, [], [(1, 10)], 1⟩ "RESPONSE:\x7b\"id\":1,").1
        "\"result\":5\x7d\n").1.callbacks = [(1, 10)] ∧
    ((handlePythonMessage ⟨true, [], [(1, 10)], 1⟩ "RESPONSE:\x7b\"id\":1,").2 ++
      (handlePythonMessage
        (handlePythonMessage ⟨true, [], [(1, 10)], 1⟩ "RESPONSE:\x7b\"id\":1,").1
        "\"result\":5\x7d\n").2).filter isCallbackEvent = [] := by
  decide

/-- Claim C6 (code gap).  The claim says a call issued after termination or
after a backend crash fails immediately and is never silently queued.  In
the code both states just leave `isReady = false`, so `callPython` pushes
the call onto `messageQueue` and returns without producing any event: after
`terminate()` and equally after the process `exit` event, a new call is
silently queued and its callback never invoked. -/
theorem call_after_shutdown_silently_queued :
    ((callPython true (terminate ⟨true, [], [(1, 10)], 3⟩).1 "get_exams" [] 11).1.messageQueue
        = [⟨"get_exams", [], 11⟩] ∧
      (callPython true (terminate ⟨true, [], [(1, 10)], 3⟩).1 "get_exams" [] 11).2 = []) ∧
    ((callPython true (exitHandler ⟨true, [], [(1, 10)], 3⟩ 0).1 "get_exams" [] 11).1.messageQueue
        = [⟨"get_exams", [], 11⟩] ∧
      (callPython true (exitHandler ⟨true, [], [(1, 10)], 3⟩ 0).1 "get_exams" [] 11).2 = []) := by
  decide

/-- Claim C9.  Frames are matched to callers purely by id: with two
distinct in-flight ids whose callbacks are registered, delivering the reply
to the second-issued id first invokes exactly that caller's callback with
that frame's result, and the later reply to the first id still reaches the
first caller's callback with its own result. -/
theorem responses_matched_by_id (b : Bridge) (i1 i2 cb1 cb2 r1 r2 : Nat)
    (hne : i1 ≠ i2) (h1 : mapGet b.callbacks i1 = some cb1)
    (h2 : mapGet b.callbacks i2 = some cb2) :
    (dispatchFrame b (Frame.response i2 r2)).2 = [Event.cbResult cb2 r2] ∧
    (dispatchFrame (dispatchFrame b (Frame.response i2 r2)).1 (Frame.response i1 r1)).2
      = [Event.cbResult cb1 r1] := by
  have h1' : mapGet (mapDelete b.callbacks i2) i1 = some cb1 := by
    rw [mapGet_mapDelete_ne _ _ _ hne]; exact h1
  constructor
  · simp [dispatchFrame, h2]
  · simp [dispatchFrame, h2, h1']

/-- Witness for C9: ids 1 and 2 in flight, backend answers id 2 first. -/
theorem responses_matched_by_id_witness :
    (dispatchFrame ⟨true, [], [(1, 10), (2, 11)], 2⟩ (Frame.response 2 9)).2
      = [Event.cbResult 11 9] ∧
    (dispatchFrame (dispatchFrame ⟨true, [], [(1, 10), (2, 11)], 2⟩ (Frame.response 2 9)).1
        (Frame.response 1 4)).2 = [Event.cbResult 10 4] :=
  responses_matched_by_id ⟨true, [], [(1, 10), (2, 11)], 2⟩ 1 2 10 11 4 9
    (by decide) (by decide) (by decide)

/-- Claim C10.  When the bridge is ready and the stdin write throws, the
caller's callback is failed with the write error, and the pending entry
registered under the freshly allocated id (`messageId + 1`) is deleted
again, so no pending call for that id remains. -/
theorem write_failure_removes_pending (b : Bridge) (m : String) (p : Params) (cb : Nat)
    (h : b.isReady = true) :
    (callPython false b m p cb).2 = [Event.cbError cb "write failed"] ∧
    mapGet (callPython false b m p cb).1.callbacks (b.messageId + 1) = none ∧
    (callPython false b m p cb).1.messageId = b.messageId + 1 := by
  refine ⟨?_, ?_, ?_⟩ <;> simp [callPython, h, mapGet_mapDelete_self]

/-- Witness for C10 at a fresh ready bridge. -/
theorem write_failure_removes_pending_witness :
    (callPython false ⟨true, [], [], 0⟩ "get_exams" [] 9).2 = [Event.cbError 9 "write failed"] ∧
    mapGet (callPython false ⟨true, [], [], 0⟩ "get_exams" [] 9).1.callbacks 1 = none ∧
    (callPython false ⟨true, [], [], 0⟩ "get_exams" [] 9).1.messageId = 1 :=
  write_failure_removes_pending ⟨true, [], [], 0⟩ "get_exams" [] 9 rfl

/-- Claim C7.  A dispatcher invocation with an operation name outside the
fixed catalogue throws `Unknown method: <name>` and never reaches the
bridge: the bridge state is returned untouched (so no id is allocated and
no pending call is registered) and no event — in particular no transmitted
request — is produced. -/
theorem unknown_method_rejected (w : Bool) (b : Bridge) (method : String) (p : Params)
    (cb : Nat) (h : method ∉ supportedMethods) :
    ipcPythonCall w b method p cb = (b, [], some ("Unknown method: " ++ method)) := by
  unfold ipcPythonCall
  split <;> simp_all [supportedMethods]

/-- Witness for C7: the unsupported name `frobnicate`. -/
theorem unknown_method_rejected_witness :
    ipcPythonCall true initialBridge "frobnicate" [] 3
      = (initialBridge, [], some ("Unknown method: " ++ "frobnicate")) :=
  unknown_method_rejected true initialBridge "frobnicate" [] 3 (by decide)

/-- Helper for C8: with a never-connecting oracle, the polling loop always
rejects, and the elapsed time it reports exceeds the budget.  The bound
`timeout < elapsed + 1000 * k` guarantees the fuel `k + 1` suffices because
every retry adds the fixed 1000 ms backoff. -/
theorem waitLoop_times_out (connects : Nat → Bool) (cost : Nat → Nat) (timeout : Nat)
    (h : ∀ n, connects n = false) :
    ∀ (k n elapsed : Nat), timeout < elapsed + 1000 * k →
      ∃ e, waitLoop connects cost timeout (k + 1) n elapsed = some (Except.error e) ∧
        timeout < e := by
  intro k
  induction k with
  | zero =>
    intro n elapsed hb
    have hc : timeout < elapsed + cost n := by omega
    exact ⟨elapsed + cost n, by simp [waitLoop, h n, hc], hc⟩
  | succ k ih =>
    intro n elapsed hb
    by_cases hc : timeout < elapsed + cost n
    · exact ⟨elapsed + cost n, by simp [waitLoop, h n, hc], hc⟩
    · obtain ⟨e, he, hte⟩ := ih (n + 1) (elapsed + cost n + 1000) (by omega)
      refine ⟨e, ?_, hte⟩
      simpa [waitLoop, h n, hc] using he

/-- Claim C8.  If the backend endpoint never becomes connectable, the
socket-poll wait — which retries with the fixed 1000 ms backoff — rejects
with the timeout error once the elapsed time exceeds the 30000 ms budget
(the reported elapsed time is strictly greater than 30000), and
`startPythonBackend` then returns failure without ever having sent a
request to the backend (its event trace contains no transmitted request). -/
theorem readiness_poll_times_out (connects : Nat → Bool) (cost : Nat → Nat)
    (h : ∀ n, connects n = false) :
    (∃ e, waitForService connects cost 30000 = some (Except.error e) ∧ 30000 < e) ∧
    startPythonBackend true connects cost
      = (false, [Event.logged "Failed to start Python backend"]) ∧
    sentIds (startPythonBackend true connects cost).2 = [] := by
  obtain ⟨e, he, hte⟩ := waitLoop_times_out connects cost 30000 h 31 0 0 (by omega)
  have hw : waitForService connects cost 30000 = some (Except.error e) := he
  refine ⟨⟨e, hw, hte⟩, ?_, ?_⟩
  · simp [startPythonBackend, hw]
  · simp [startPythonBackend, hw, sentIds]

/-- Witness for C8: an endpoint that refuses instantly on every attempt. -/
theorem readiness_poll_times_out_witness :
    (∃ e, waitForService (fun _ => false) (fun _ => 0) 30000 = some (Except.error e) ∧
      30000 < e) ∧
    startPythonBackend true (fun _ => false) (fun _ => 0)
      = (false, [Event.logged "Failed to start Python backend"]) ∧
    sentIds (startPythonBackend true (fun _ => false) (fun _ => 0)).2 = [] :=
  readiness_poll_times_out (fun _ => false) (fun _ => 0) (fun _ => rfl)

/-! ## FIFO drain of the message queue (claim C2) -/

/-- The transmissions expected from draining `qs` in FIFO order when the
last allocated id was `lastId`: consecutive ids, each request serialized
from the queued method and params. -/
def expectedSends : Nat → List QueuedCall → List Event
  | _, [] => []
  | lastId, qc :: rest =>
    Event.sent (lastId + 1) (serializeRequest (lastId + 1) qc.method qc.params) ::
      expectedSends (lastId + 1) rest

theorem runOps_append (l1 l2 : List Op) (b : Bridge) :
    runOps b (l1 ++ l2)
      = ((runOps (runOps b l1).1 l2).1,
         (runOps b l1).2 ++ (runOps (runOps b l1).1 l2).2) := by
  induction l1 generalizing b with
  | nil => simp [runOps]
  | cons op l1 ih => simp [runOps, ih]

theorem runOps_calls_queue (qs : List QueuedCall) (w : Bool) (b : Bridge)
    (h : b.isReady = false) :
    runOps b (qs.map (fun qc => Op.call w qc.method qc.params qc.callback))
      = ({ b with messageQueue := b.messageQueue ++ qs }, []) := by
  induction qs generalizing b with
  | nil => simp [runOps]
  | cons qc qs ih =>
    have hih := ih { b with messageQueue := b.messageQueue ++ [qc] } h
    simp [runOps, stepOp, callPython, h, List.append_assoc] at hih ⊢
    exact hih

theorem drainGo_ready_exact (qs : List QueuedCall) :
    ∀ b : Bridge, b.isReady = true → b.messageQueue = qs →
      (drainGo true qs.length b).2 = expectedSends b.messageId qs := by
  induction qs with
  | nil => intro b _ _; simp [drainGo, expectedSends]
  | cons qc rest ih =>
    intro b hr hq
    have hih := ih
      { b with
        messageQueue := rest
        messageId := b.messageId + 1
        callbacks := mapSet b.callbacks (b.messageId + 1) qc.callback } hr rfl
    simp [drainGo, hq, callPython, hr, expectedSends] at hih ⊢
    exact hih

/-- Claim C2.  For every sequence of calls issued while the bridge is not
yet ready, reaching readiness drains the queue in FIFO order: the event
trace of the whole session is exactly one transmitted request per queued
call, in invocation order, serialized with consecutive ids starting at 1. -/
theorem queued_calls_sent_fifo (qs : List QueuedCall) :
    (runOps initialBridge
        ((qs.map (fun qc => Op.call true qc.method qc.params qc.callback))
          ++ [Op.ready true])).2
      = expectedSends 0 qs := by
  rw [runOps_append, runOps_calls_queue qs true initialBridge rfl]
  have h := drainGo_ready_exact qs ⟨true, qs, [], 0⟩ rfl rfl
  simpa [runOps, stepOp, readyTimeout, processMessageQueue, initialBridge] using h

/-! ## Monotone id allocation (claim C3) -/

theorem sentIds_append (a c : List Event) : sentIds (a ++ c) = sentIds a ++ sentIds c := by
  induction a with
  | nil => rfl
  | cons e rest ih => cases e <;> simp [sentIds, ih]

theorem range'_append_custom (s a c : Nat) :
    List.range' s a ++ List.range' (s + a) c = List.range' s (a + c) := by
  induction a generalizing s with
  | zero => simp [List.range']
  | succ a ih =>
    have h1 : s + (a + 1) = (s + 1) + a := by omega
    have h2 : a + 1 + c = (a + c) + 1 := by omega
    rw [h2]
    simp only [List.range', List.cons_append]
    rw [h1, ih]

theorem callPython_sent_spec (w : Bool) (b : Bridge) (m : String) (p : Params) (cb : Nat) :
    b.messageId ≤ (callPython w b m p cb).1.messageId ∧
    (∀ i ∈ sentIds (callPython w b m p cb).2,
      b.messageId < i ∧ i ≤ (callPython w b m p cb).1.messageId) ∧
    List.Pairwise (· < ·) (sentIds (callPython w b m p cb).2) ∧
    (w = true → sentIds (callPython w b m p cb).2
      = List.range' (b.messageId + 1) ((callPython w b m p cb).1.messageId - b.messageId)) := by
  cases hr : b.isReady <;> cases w <;>
    simp [callPython, hr, sentIds, List.range', Nat.add_sub_cancel_left]

theorem dispatchFrame_no_sent (b : Bridge) (f : Frame) :
    sentIds (dispatchFrame b f).2 = [] ∧ (dispatchFrame b f).1.messageId = b.messageId := by
  cases f with
  | response i r => cases hm : mapGet b.callbacks i <;> simp [dispatchFrame, hm, sentIds]
  | fault i msg => cases hm : mapGet b.callbacks i <;> simp [dispatchFrame, hm, sentIds]

theorem handleLines_no_sent (lines : List (List Char)) :
    ∀ b, sentIds (handleLines b lines).2 = [] ∧
      (handleLines b lines).1.messageId = b.messageId := by
  induction lines with
  | nil => intro b; simp [handleLines, sentIds]
  | cons line rest ih =>
    intro b
    cases hc : classifyLine line with
    | parseFailure => simp [handleLines, hc, sentIds]
    | skipped => simpa [handleLines, hc] using ih b
    | frame f =>
      have hd := dispatchFrame_no_sent b f
      have hr := ih (dispatchFrame b f).1
      simp [handleLines, hc, sentIds_append, hd.1, hd.2, hr.1, hr.2]

theorem sent_spec_combine (m0 m1 m2 : Nat) (s1 s2 : List Nat)
    (hLe1 : m0 ≤ m1) (hLe2 : m1 ≤ m2)
    (hB1 : ∀ i ∈ s1, m0 < i ∧ i ≤ m1) (hB2 : ∀ i ∈ s2, m1 < i ∧ i ≤ m2)
    (hP1 : List.Pairwise (· < ·) s1) (hP2 : List.Pairwise (· < ·) s2) :
    m0 ≤ m2 ∧ (∀ i ∈ s1 ++ s2, m0 < i ∧ i ≤ m2) ∧
      List.Pairwise (· < ·) (s1 ++ s2) := by
  refine ⟨le_trans hLe1 hLe2, ?_, ?_⟩
  · intro i hi
    rcases List.mem_append.mp hi with h | h
    · exact ⟨(hB1 i h).1, le_trans (hB1 i h).2 hLe2⟩
    · exact ⟨lt_of_le_of_lt hLe1 (hB2 i h).1, (hB2 i h).2⟩
  · rw [List.pairwise_append]
    exact ⟨hP1, hP2, fun x hx y hy => lt_of_le_of_lt (hB1 x hx).2 (hB2 y hy).1⟩

theorem sent_range_combine (m0 m1 m2 : Nat) (s1 s2 : List Nat)
    (hLe1 : m0 ≤ m1) (hLe2 : m1 ≤ m2)
    (hR1 : s1 = List.range' (m0 + 1) (m1 - m0)) (hR2 : s2 = List.range' (m1 + 1) (m2 - m1)) :
    s1 ++ s2 = List.range' (m0 + 1) (m2 - m0) := by
  rw [hR1, hR2]
  have h : m1 + 1 = (m0 + 1) + (m1 - m0) := by omega
  rw [h, range'_append_custom]
  congr 1
  omega

theorem drainGo_sent_spec (w : Bool) :
    ∀ (fuel : Nat) (b : Bridge),
      b.messageId ≤ (drainGo w fuel b).1.messageId ∧
      (∀ i ∈ sentIds (drainGo w fuel b).2,
        b.messageId < i ∧ i ≤ (drainGo w fuel b).1.messageId) ∧
      List.Pairwise (· < ·) (sentIds (drainGo w fuel b).2) ∧
      (w = true → sentIds (drainGo w fuel b).2
        = List.range' (b.messageId + 1) ((drainGo w fuel b).1.messageId - b.messageId)) := by
  intro fuel
  induction fuel with
  | zero => intro b; simp [drainGo, sentIds, List.range']
  | succ fuel ih =>
    intro b
    cases hq : b.messageQueue with
    | nil => simp [drainGo, hq, sentIds, List.range']
    | cons qc rest =>
      obtain ⟨hLe1, hB1, hP1, hR1⟩ :=
        callPython_sent_spec w { b with messageQueue := rest } qc.method qc.params qc.callback
      obtain ⟨hLe2, hB2, hP2, hR2⟩ :=
        ih (callPython w { b with messageQueue := rest } qc.method qc.params qc.callback).1
      have hstep : drainGo w (fuel + 1) b
          = ((drainGo w fuel
                (callPython w { b with messageQueue := rest } qc.method qc.params qc.callback).1).1,
             (callPython w { b with messageQueue := rest } qc.method qc.params qc.callback).2
               ++ (drainGo w fuel
                (callPython w { b with messageQueue := rest } qc.method qc.params qc.callback).1).2) := by
        simp [drainGo, hq]
      rw [hstep]
      have hc := sent_spec_combine b.messageId _ _ _ _ hLe1 hLe2 hB1 hB2 hP1 hP2
      refine ⟨hc.1, ?_, ?_, ?_⟩
      · intro i hi
        rw [sentIds_append] at hi
        exact hc.2.1 i hi
      · rw [sentIds_append]
        exact hc.2.2
      · intro hw
        rw [sentIds_append]
        exact sent_range_combine b.messageId _ _ _ _ hLe1 hLe2 (hR1 hw) (hR2 hw)

theorem stepOp_sent_spec (b : Bridge) (op : Op) :
    b.messageId ≤ (stepOp b op).1.messageId ∧
    (∀ i ∈ sentIds (stepOp b op).2, b.messageId < i ∧ i ≤ (stepOp b op).1.messageId) ∧
    List.Pairwise (· < ·) (sentIds (stepOp b op).2) ∧
    (opWriteOk op = true → sentIds (stepOp b op).2
      = List.range' (b.messageId + 1) ((stepOp b op).1.messageId - b.messageId)) := by
  cases op with
  | call w m p cb => exact callPython_sent_spec w b m p cb
  | recv data =>
    obtain ⟨h1, h2⟩ := handleLines_no_sent (splitNl (jsTrim data.data)) b
    refine ⟨?_, ?_, ?_, ?_⟩ <;>
      simp [stepOp, handlePythonMessage, h1, h2, sentIds, List.range']
  | ready w =>
    have h := drainGo_sent_spec w
      ({ b with isReady := true } : Bridge).messageQueue.length { b with isReady := true }
    simpa [stepOp, readyTimeout, processMessageQueue] using h
  | procExit c =>
    refine ⟨?_, ?_, ?_, ?_⟩ <;> simp [stepOp, exitHandler, sentIds, List.range']
  | term =>
    refine ⟨?_, ?_, ?_, ?_⟩ <;> simp [stepOp, terminate, sentIds, List.range']

theorem runOps_sent_spec (ops : List Op) :
    ∀ b, b.messageId ≤ (runOps b ops).1.messageId ∧
      (∀ i ∈ sentIds (runOps b ops).2, b.messageId < i ∧ i ≤ (runOps b ops).1.messageId) ∧
      List.Pairwise (· < ·) (sentIds (runOps b ops).2) ∧
      (allWritesOk ops = true → sentIds (runOps b ops).2
        = List.range' (b.messageId + 1) ((runOps b ops).1.messageId - b.messageId)) := by
  induction ops with
  | nil => intro b; simp [runOps, sentIds, List.range']
  | cons op ops ih =>
    intro b
    obtain ⟨hLe1, hB1, hP1, hR1⟩ := stepOp_sent_spec b op
    obtain ⟨hLe2, hB2, hP2, hR2⟩ := ih (stepOp b op).1
    have hstep : runOps b (op :: ops)
        = ((runOps (stepOp b op).1 ops).1,
           (stepOp b op).2 ++ (runOps (stepOp b op).1 ops).2) := by
      simp [runOps]
    rw [hstep]
    have hc := sent_spec_combine b.messageId _ _ _ _ hLe1 hLe2 hB1 hB2 hP1 hP2
    refine ⟨hc.1, ?_, ?_, ?_⟩
    · intro i hi
      rw [sentIds_append] at hi
      exact hc.2.1 i hi
    · rw [sentIds_append]
      exact hc.2.2
    · intro hw
      simp only [allWritesOk, List.all_cons, Bool.and_eq_true] at hw
      rw [sentIds_append]
      exact sent_range_combine b.messageId _ _ _ _ hLe1 hLe2 (hR1 hw.1) (hR2 hw.2)

/-- Claim C3.  Within one session (any sequence of operations on one bridge
instance, starting from the constructor state) the ids carried by
transmitted requests are pairwise strictly increasing in transmission order
— so no id is ever reused — and when every stdin write succeeds the
transmitted ids are exactly `1, 2, ..., messageId`: consecutive ids
starting at 1 for the first request of the session. -/
theorem sent_ids_strictly_increasing (ops : List Op) :
    List.Pairwise (· < ·) (sentIds (runOps initialBridge ops).2) ∧
    (allWritesOk ops = true →
      sentIds (runOps initialBridge ops).2
        = List.range' 1 (runOps initialBridge ops).1.messageId) := by
  have h := runOps_sent_spec ops initialBridge
  refine ⟨h.2.2.1, fun hw => ?_⟩
  simpa [initialBridge] using h.2.2.2 hw

/-- Witness for C3: a call before readiness and a call after readiness are
transmitted with ids exactly `[1, 2]`. -/
theorem sent_ids_strictly_increasing_witness :
    sentIds (runOps initialBridge
        [Op.call true "get_exams" [] 30, Op.ready true, Op.call true "get_settings" [] 31]).2
      = List.range' 1 2 := by
  have h := (sent_ids_strictly_increasing
    [Op.call true "get_exams" [] 30, Op.ready true, Op.call true "get_settings" [] 31]).2
    (by decide)
  exact h.trans (by decide)

end OmrBridge
